import Mathlib

/-!
Verification of the mind-swarm-common-ui correlation and delivery engine.

Each section embeds one component of the repository (MailQueue, the
reply-correlation predicate of ServiceBase, MailHandlerRegistry, the
WebSocketTransport lifecycle state machine, the pending-request table, and
MailTransportAdapter's wire envelope handling) as executable Lean
definitions translated from the TypeScript source, and proves the spec's
testable properties about them.

Modelling conventions:
- JavaScript strings are modelled as Lean `String`; `charCodeAt` is
  modelled by the character's code point (they agree on the BMP characters
  exercised here).  The source field name `to` is rendered `toAddr`
  because `to` is a Lean keyword.
- JavaScript 32-bit integer coercion (`x & x`, `<<`) is modelled with
  `Int` arithmetic reduced by an explicit two's-complement wrap.
- `Date.now()` timestamps are `Nat` values; JS number subtraction in
  comparisons is carried out on `Int` so that ordering quirks are kept.
- Promise/exception control flow is modelled with `Except`; the
  single-threaded event loop is modelled by explicit event traces folded
  over a step function.
- Console/debug logging in the source does not affect any state read by
  the claimed behaviour and is not modelled.
-/

set_option maxRecDepth 8192

namespace MindSwarm

/-- Two's-complement 32-bit wrap of an integer, modelling JavaScript's
`ToInt32` coercion performed by `x & x` and by the shift operator. -/
def toInt32 (n : Int) : Int :=
  (n + 2 ^ 31) % 2 ^ 32 - 2 ^ 31

namespace MailQueue

/-- One step of the polynomial hash loop in `MailQueue.generateHash`:
`hash = ((hash << 5) - hash) + char; hash = hash & hash`.  The shift acts
on (and produces) a 32-bit value, the mixed sum is exact in doubles, and
the final `& hash` coerces back to 32 bits. -/
def hashStep (h : Int) (c : Nat) : Int :=
  toInt32 (toInt32 (h * 32) - h + (c : Int))

/-- Digest used for deduplication, from `MailQueue.generateHash`: the hash
of `to + "|" + subject + "|" + body.substring(0, 200)`.  The source then
renders it with `toString(36)`, which is injective on integers, so the
integer value itself is kept as the map key. -/
def generateHash (toAddr subject body : String) : Int :=
  ((toAddr ++ "|" ++ subject ++ "|" ++ body.take 200).data).foldl
    (fun h c => hashStep h c.toNat) 0

/-- Queued mail item, from the `QueuedMail` interface. -/
structure QueuedMail where
  id : String
  toAddr : String
  subject : String
  body : String
  timestamp : Nat
  attempts : Nat
  hash : Int
  headers : Option (List (String × String))
deriving DecidableEq, Repr

/-- Configuration of a `MailQueue` (defaults: dedupe window 500 ms from
`MESSAGE_DEDUP_WINDOW_MS`, `maxAttempts = 3`). -/
structure Config where
  dedupeWindowMs : Nat
  maxAttempts : Nat
deriving DecidableEq, Repr

/-- Mutable state of a `MailQueue`: the FIFO `queue` array and the
`recentHashes` Map from digest to the timestamp of its last accepted
enqueue.  The Map is modelled as an association list with JS `Map.set`
semantics (replace in place, else append). -/
structure State where
  queue : List QueuedMail
  recentHashes : List (Int × Nat)
deriving DecidableEq, Repr

/-- Lookup in the `recentHashes` map (`Map.get`). -/
def hashGet (l : List (Int × Nat)) (k : Int) : Option Nat :=
  (l.find? (fun p => p.1 == k)).map (fun p => p.2)

/-- Update of the `recentHashes` map (`Map.set`): replaces the value of an
existing key in place, otherwise appends the new entry. -/
def hashSet (l : List (Int × Nat)) (k : Int) (v : Nat) : List (Int × Nat) :=
  match l with
  | [] => [(k, v)]
  | p :: rest => if p.1 == k then (k, v) :: rest else p :: hashSet rest k v

/-- Duplicate test of `enqueueWithId`, inlined in the source as
`lastSeen && (now - lastSeen) < this.dedupeWindowMs`: the recorded
timestamp must exist, be truthy (nonzero), and lie less than the dedupe
window in the past. -/
def dupCheck (cfg : Config) (s : State) (hash : Int) (now : Nat) : Bool :=
  match hashGet s.recentHashes hash with
  | some lastSeen =>
      decide (lastSeen ≠ 0) &&
        decide ((now : Int) - (lastSeen : Int) < (cfg.dedupeWindowMs : Int))
  | none => false

/-- Embedding of `MailQueue.enqueueWithId`.  It computes the digest; a
duplicate within the window is rejected with the state unchanged;
otherwise the item is appended with `attempts = 0` and the digest
timestamp is set to `now`. -/
def enqueueWithId (cfg : Config) (s : State) (id toAddr subject body : String)
    (headers : Option (List (String × String))) (now : Nat) : Bool × State :=
  if dupCheck cfg s (generateHash toAddr subject body) now then
    (false, s)
  else
    (true,
      { queue := s.queue ++
          [⟨id, toAddr, subject, body, now, 0, generateHash toAddr subject body, headers⟩]
        recentHashes := hashSet s.recentHashes (generateHash toAddr subject body) now })

/-- Embedding of `MailQueue.enqueue`: a fresh UUID (passed in explicitly,
since the model is pure) is used as the id; the call returns the id on
acceptance and `null` on duplicate rejection. -/
def enqueue (cfg : Config) (s : State) (fresh toAddr subject body : String)
    (headers : Option (List (String × String))) (now : Nat) :
    Option String × State :=
  let r := enqueueWithId cfg s fresh toAddr subject body headers now
  (if r.1 then some fresh else none, r.2)

/-- Embedding of `MailQueue.dequeue`: pops the oldest item and increments
its `attempts` counter. -/
def dequeue (s : State) : Option QueuedMail × State :=
  match s.queue with
  | [] => (none, s)
  | m :: rest => (some { m with attempts := m.attempts + 1 }, { s with queue := rest })

/-- Embedding of `MailQueue.requeue`: re-inserts the item at the front
when `attempts < maxAttempts`, otherwise drops it (the state is returned
unchanged apart from a log line, which is not modelled). -/
def requeue (cfg : Config) (s : State) (mail : QueuedMail) : State :=
  if mail.attempts < cfg.maxAttempts then
    { s with queue := mail :: s.queue }
  else
    s

/-- One recorded enqueue call of a trace: the explicit id, the digest
inputs, the optional headers, and the `Date.now()` value at the call. -/
structure EnqueueCall where
  id : String
  toAddr : String
  subject : String
  body : String
  headers : Option (List (String × String))
  now : Nat
deriving DecidableEq, Repr

/-- Digest of a recorded call. -/
def EnqueueCall.hash (c : EnqueueCall) : Int :=
  generateHash c.toAddr c.subject c.body

theorem hashGet_cons (p : Int × Nat) (rest : List (Int × Nat)) (k : Int) :
    hashGet (p :: rest) k = if p.1 == k then some p.2 else hashGet rest k := by
  by_cases h : p.1 == k
  · simp [hashGet, List.find?, h]
  · simp [hashGet, List.find?, h]

theorem hashGet_hashSet_self (l : List (Int × Nat)) (k : Int) (v : Nat) :
    hashGet (hashSet l k v) k = some v := by
  induction l with
  | nil => simp [hashGet, hashSet, List.find?]
  | cons p rest ih =>
      by_cases h : p.1 = k
      · simp [hashSet, h, hashGet_cons]
      · simp only [hashSet, beq_iff_eq, h, if_false]
        rw [hashGet_cons]
        simp [h, ih]

/-- Inversion of an accepted `enqueueWithId`: the resulting state appends
the item and records the digest timestamp. -/
theorem enqueueWithId_accepted (cfg : Config) (s : State)
    (id toAddr subject body : String) (headers : Option (List (String × String)))
    (now : Nat) (s' : State)
    (h : enqueueWithId cfg s id toAddr subject body headers now = (true, s')) :
    s'.queue = s.queue ++
        [⟨id, toAddr, subject, body, now, 0, generateHash toAddr subject body, headers⟩] ∧
      s'.recentHashes = hashSet s.recentHashes (generateHash toAddr subject body) now := by
  unfold enqueueWithId at h
  by_cases hdup : dupCheck cfg s (generateHash toAddr subject body) now
  · rw [if_pos hdup] at h
    exact absurd (congrArg Prod.fst h) (by simp)
  · rw [if_neg hdup] at h
    have h2 := congrArg Prod.snd h
    simp only at h2
    rw [← h2]
    exact ⟨rfl, rfl⟩

/-- Claim C7: `requeue` drops an item whose `attempts` has reached
`maxAttempts` (the state is unchanged, the item is never reinserted) and
reinserts an item with `attempts < maxAttempts` at the front of the
queue. -/
theorem requeue_drops_at_max (cfg : Config) (s : State) (mail : QueuedMail) :
    (cfg.maxAttempts ≤ mail.attempts → requeue cfg s mail = s)
    ∧ (mail.attempts < cfg.maxAttempts →
        requeue cfg s mail = { s with queue := mail :: s.queue }) := by
  constructor
  · intro h
    unfold requeue
    rw [if_neg (not_lt.mpr h)]
  · intro h
    unfold requeue
    rw [if_pos h]

/-- Witness for C7: with `maxAttempts = 3`, an item at 3 attempts is
dropped and an item at 1 attempt is reinserted at the front. -/
theorem requeue_drops_at_max_witness :
    requeue ⟨500, 3⟩ ⟨[], []⟩ ⟨"i", "t", "s", "b", 0, 3, 0, none⟩ = ⟨[], []⟩
    ∧ requeue ⟨500, 3⟩ ⟨[], []⟩ ⟨"i", "t", "s", "b", 0, 1, 0, none⟩
        = ⟨[⟨"i", "t", "s", "b", 0, 1, 0, none⟩], []⟩ :=
  ⟨(requeue_drops_at_max ⟨500, 3⟩ ⟨[], []⟩ ⟨"i", "t", "s", "b", 0, 3, 0, none⟩).1
      (by decide),
    (requeue_drops_at_max ⟨500, 3⟩ ⟨[], []⟩ ⟨"i", "t", "s", "b", 0, 1, 0, none⟩).2
      (by decide)⟩

/-- Claim C10: a duplicate rejection by `enqueueWithId` returns `false`
and leaves the queue and the dedup-hash map completely unchanged; in
particular the rejected attempt does not refresh the stored timestamp, so
a later duplicate is accepted as soon as the window has elapsed since the
last ACCEPTED enqueue, even if it is within the window of the rejected
attempt. -/
theorem enqueueWithId_reject_frame (cfg : Config) (s : State)
    (id toAddr subject body : String) (hdrs : Option (List (String × String)))
    (now : Nat) :
    ((enqueueWithId cfg s id toAddr subject body hdrs now).1 = false →
        (enqueueWithId cfg s id toAddr subject body hdrs now).2 = s)
    ∧ (∀ (id2 id3 : String) (hdrs2 hdrs3 : Option (List (String × String)))
        (t2 t3 : Nat) (s1 : State),
        enqueueWithId cfg s id toAddr subject body hdrs now = (true, s1) →
        0 < now →
        (enqueueWithId cfg s1 id2 toAddr subject body hdrs2 t2).1 = false →
        (cfg.dedupeWindowMs : Int) ≤ (t3 : Int) - (now : Int) →
        (enqueueWithId cfg
            (enqueueWithId cfg s1 id2 toAddr subject body hdrs2 t2).2
            id3 toAddr subject body hdrs3 t3).1 = true) := by
  have frame : ∀ (s' : State) (id' : String) (hdrs' : Option (List (String × String)))
      (t' : Nat),
      (enqueueWithId cfg s' id' toAddr subject body hdrs' t').1 = false →
      (enqueueWithId cfg s' id' toAddr subject body hdrs' t').2 = s' := by
    intro s' id' hdrs' t' hrej
    unfold enqueueWithId at hrej ⊢
    by_cases hdup : dupCheck cfg s' (generateHash toAddr subject body) t'
    · rw [if_pos hdup]
    · rw [if_neg hdup] at hrej
      exact absurd hrej (by simp)
  refine ⟨frame s id hdrs now, ?_⟩
  intro id2 id3 hdrs2 hdrs3 t2 t3 s1 hacc hpos hrej hwin
  have hs1 : (enqueueWithId cfg s1 id2 toAddr subject body hdrs2 t2).2 = s1 :=
    frame s1 id2 hdrs2 t2 hrej
  rw [hs1]
  have hrec := (enqueueWithId_accepted cfg s id toAddr subject body hdrs now s1 hacc).2
  have hget1 : hashGet s1.recentHashes (generateHash toAddr subject body) = some now := by
    rw [hrec]
    exact hashGet_hashSet_self _ _ _
  have hnot : ¬ ((t3 : Int) - (now : Int) < (cfg.dedupeWindowMs : Int)) :=
    not_lt.mpr hwin
  have hdup : dupCheck cfg s1 (generateHash toAddr subject body) t3 = false := by
    unfold dupCheck
    rw [hget1]
    simp [hnot]
  unfold enqueueWithId
  rw [if_neg (by simp [hdup])]

/-- Witness for C10: an accepted enqueue at clock 50, a rejected duplicate
at clock 250 that changes nothing, and a duplicate at clock 700 (within
450 ms of the rejected attempt but 650 ms after the accepted one) that is
accepted. -/
theorem enqueueWithId_reject_frame_witness :
    ((enqueueWithId ⟨500, 3⟩
        (enqueueWithId ⟨500, 3⟩ ⟨[], []⟩ "a" "t" "s" "x" none 50).2
        "b" "t" "s" "x" none 250).2
      = (enqueueWithId ⟨500, 3⟩ ⟨[], []⟩ "a" "t" "s" "x" none 50).2)
    ∧ (enqueueWithId ⟨500, 3⟩
        (enqueueWithId ⟨500, 3⟩
          (enqueueWithId ⟨500, 3⟩ ⟨[], []⟩ "a" "t" "s" "x" none 50).2
          "b" "t" "s" "x" none 250).2
        "c" "t" "s" "x" none 700).1 = true :=
  ⟨(enqueueWithId_reject_frame ⟨500, 3⟩
        (enqueueWithId ⟨500, 3⟩ ⟨[], []⟩ "a" "t" "s" "x" none 50).2
        "b" "t" "s" "x" none 250).1 (by rfl),
    (enqueueWithId_reject_frame ⟨500, 3⟩ ⟨[], []⟩ "a" "t" "s" "x" none 50).2
      "b" "c" none none 250 700
      (enqueueWithId ⟨500, 3⟩ ⟨[], []⟩ "a" "t" "s" "x" none 50).2
      (by rfl) (by decide) (by rfl) (by decide)⟩

end MailQueue

/-- Mail domain object, from the `Mail` interface in `types/mail`
(`from_address`, `to_address`, `subject`, `body` required; `headers`,
`timestamp`, `message_id`, `in_reply_to` optional). -/
structure Mail where
  from_address : String
  to_address : String
  subject : String
  body : String
  headers : Option (List (String × String))
  timestamp : Option String
  message_id : Option String
  in_reply_to : Option String
deriving DecidableEq, Repr

namespace ServiceBase

/-- Expected subject of a reply wait, from the `string | RegExp` union in
`ServiceBase.sendAndWait`/`isResponse`.  A RegExp is modelled only through
its `test` behaviour on subject strings. -/
inductive ExpectedSubject where
  | lit (s : String)
  | pattern (test : String → Bool)

/-- JavaScript `String.prototype.includes`: substring containment. -/
def jsIncludes (s sub : String) : Bool :=
  decide (sub.data <:+: s.data)

/-- Embedding of `ServiceBase.isResponse`: an inbound mail is the awaited
response when its `in_reply_to` equals the sent `messageId`; otherwise,
for a literal expected subject, when its subject equals
`"Response: subject"`, equals `"Re: subject"`, or contains the expected
subject as a substring; for a RegExp expected subject, when the pattern
tests true on the inbound subject. -/
def isResponse (mail : Mail) (messageId : String)
    (expectedSubject : ExpectedSubject) : Bool :=
  if mail.in_reply_to == some messageId then
    true
  else
    match expectedSubject with
    | .lit s =>
        (mail.subject == "Response: " ++ s) || (mail.subject == "Re: " ++ s) ||
          jsIncludes mail.subject s
    | .pattern test => test mail.subject

/-- Claim C2: the reply-wait correlation predicate accepts an inbound mail
with `in_reply_to = messageId` regardless of its subject; otherwise, for a
literal expected subject `s`, it accepts exactly the mails whose subject
equals `"Response: s"`, equals `"Re: s"`, or contains `s` as a substring,
and for a RegExp expected subject exactly the mails whose subject the
pattern matches. -/
theorem isResponse_characterization (mail : Mail) (messageId : String) :
    (∀ s : String,
        isResponse mail messageId (.lit s) = true ↔
          (mail.in_reply_to = some messageId ∨ mail.subject = "Response: " ++ s
            ∨ mail.subject = "Re: " ++ s ∨ s.data <:+: mail.subject.data))
    ∧ (∀ test : String → Bool,
        isResponse mail messageId (.pattern test) = true ↔
          (mail.in_reply_to = some messageId ∨ test mail.subject = true)) := by
  constructor
  · intro s
    by_cases h : mail.in_reply_to = some messageId
    · simp [isResponse, jsIncludes, h]
    · simp [isResponse, jsIncludes, h]
      tauto
  · intro test
    by_cases h : mail.in_reply_to = some messageId
    · simp [isResponse, h]
    · simp [isResponse, h]

end ServiceBase

namespace Handlers

/-- Result returned by a mail handler, from the `MailHandlerResult`
interface (`data` is opaque to dispatch and modelled as a string). -/
structure MailHandlerResult where
  handled : Bool
  data : Option String
  error : Option String
deriving DecidableEq, Repr

/-- Registered mail handler, from the `MailHandler` interface.  A thrown
exception (in `canHandle` or in the awaited `handle`) is modelled as
`Except.error` carrying the error message. -/
structure MailHandler where
  id : String
  priority : Option Int
  canHandle : Mail → Except String Bool
  handle : Mail → Except String MailHandlerResult

/-- Sort key of a handler: `(h.priority || 0)` in the comparator of
`updateSortedHandlers`. -/
def prioKey (h : MailHandler) : Int :=
  h.priority.getD 0

/-- Embedding of `updateSortedHandlers`: the registration-ordered handler
list sorted by descending priority.  JS `Array.prototype.sort` is stable,
which insertion sort with the non-strict comparison reproduces. -/
def sortHandlers (l : List MailHandler) : List MailHandler :=
  List.insertionSort (fun a b => prioKey b ≤ prioKey a) l

/-- Embedding of `MailHandlerRegistry.register` on the insertion-ordered
handler list: fails when the id is already present, else appends. -/
def registerHandler (l : List MailHandler) (h : MailHandler) :
    Except String (List MailHandler) :=
  if l.any (fun x => x.id == h.id) then
    .error "already registered"
  else
    .ok (l ++ [h])

/-- Error result pushed by the `catch` branch of `process`:
`{ handled: false, error }`. -/
def errResult (e : String) : MailHandlerResult :=
  ⟨false, none, some e⟩

/-- Success test of the dispatch loop: `result.handled && !result.error`. -/
def isSuccess (r : MailHandlerResult) : Bool :=
  r.handled && r.error.isNone

/-- Embedding of the loop body of `MailHandlerRegistry.process` over a
handler list: skip handlers whose matcher declines, collect results,
convert thrown errors (from `canHandle` or `handle`) into error results
without stopping, and stop after the first fully-handled error-free
result. -/
def processList (m : Mail) : List MailHandler → List MailHandlerResult
  | [] => []
  | h :: rest =>
      match h.canHandle m with
      | .error e => errResult e :: processList m rest
      | .ok false => processList m rest
      | .ok true =>
          match h.handle m with
          | .error e => errResult e :: processList m rest
          | .ok r => if isSuccess r then [r] else r :: processList m rest

/-- Embedding of `MailHandlerRegistry.process`: the loop runs over the
sorted handler array. -/
def process (reg : List MailHandler) (m : Mail) : List MailHandlerResult :=
  processList m (sortHandlers reg)

instance : IsTotal MailHandler (fun a b => prioKey b ≤ prioKey a) :=
  ⟨fun a b => le_total (prioKey b) (prioKey a)⟩

instance : IsTrans MailHandler (fun a b => prioKey b ≤ prioKey a) :=
  ⟨fun _ _ _ hab hbc => le_trans hbc hab⟩

theorem orderedInsert_filter_prio (a : MailHandler) (l : List MailHandler) (p : Int) :
    (List.orderedInsert (fun x y => prioKey y ≤ prioKey x) a l).filter
        (fun h => prioKey h == p)
      = if prioKey a == p then
          a :: l.filter (fun h => prioKey h == p)
        else
          l.filter (fun h => prioKey h == p) := by
  induction l with
  | nil =>
      by_cases hp : prioKey a == p
      · simp [List.orderedInsert, List.filter, hp]
      · simp [List.orderedInsert, List.filter, hp]
  | cons b l ih =>
      by_cases hr : prioKey b ≤ prioKey a
      · simp only [List.orderedInsert, if_pos hr]
        by_cases hp : prioKey a == p
        · simp [List.filter, hp]
        · simp [List.filter, hp]
      · simp only [List.orderedInsert, if_neg hr]
        have hba : prioKey a < prioKey b := lt_of_not_le hr
        by_cases hbp : prioKey b == p
        · have hap : ¬ (prioKey a == p) := by
            have : prioKey b = p := by simpa using hbp
            have hne : prioKey a ≠ p := by
              rw [← this]
              exact ne_of_lt hba
            simpa using hne
          simp [List.filter, hbp, hap, ih]
        · by_cases hp : prioKey a == p
          · simp [List.filter, hbp, hp, ih]
          · simp [List.filter, hbp, hp, ih]

theorem sortHandlers_filter_prio (l : List MailHandler) (p : Int) :
    (sortHandlers l).filter (fun h => prioKey h == p)
      = l.filter (fun h => prioKey h == p) := by
  induction l with
  | nil => rfl
  | cons h l ih =>
      unfold sortHandlers at ih ⊢
      simp only [List.insertionSort]
      rw [orderedInsert_filter_prio]
      by_cases hp : prioKey h == p
      · simp [hp, ih, List.filter]
      · simp [hp, ih, List.filter]

theorem processList_append (m : Mail) (L1 L2 : List MailHandler) :
    processList m (L1 ++ L2) =
      processList m L1 ++
        (if (processList m L1).any isSuccess = true then [] else processList m L2) := by
  induction L1 with
  | nil => simp [processList]
  | cons h L1 ih =>
      have hcons : (h :: L1) ++ L2 = h :: (L1 ++ L2) := rfl
      rw [hcons]
      cases hch : h.canHandle m with
      | error e =>
          simp only [processList, hch]
          have he : isSuccess (errResult e) = false := rfl
          rw [List.any_cons, he, Bool.false_or, ih, List.cons_append]
      | ok b =>
          cases b with
          | false =>
              simp only [processList, hch]
              exact ih
          | true =>
              cases hh : h.handle m with
              | error e =>
                  simp only [processList, hch, hh]
                  have he : isSuccess (errResult e) = false := rfl
                  rw [List.any_cons, he, Bool.false_or, ih, List.cons_append]
              | ok r =>
                  by_cases hs : isSuccess r = true
                  · simp only [processList, hch, hh, if_pos hs]
                    simp [hs]
                  · simp only [processList, hch, hh, if_neg hs]
                    have hs' : isSuccess r = false := by
                      cases hsv : isSuccess r
                      · rfl
                      · exact absurd hsv hs
                    rw [List.any_cons, hs', Bool.false_or, ih, List.cons_append]

/-- Claim C3: `process` visits handlers in descending priority order with
ties broken by registration order (the sorted array is a permutation of
the registration list, pairwise descending on the `priority || 0` key, and
preserves registration order within each priority), walks that order
stopping exactly at the first fully-handled error-free result (the append
law), skips handlers whose matcher declines, and converts a handler that
throws into an error result that does not stop the walk. -/
theorem handlerRegistry_process_order (m : Mail) :
    (∀ l : List MailHandler,
        (sortHandlers l).Pairwise (fun a b => prioKey b ≤ prioKey a)
        ∧ (sortHandlers l).Perm l
        ∧ ∀ p : Int, (sortHandlers l).filter (fun h => prioKey h == p)
            = l.filter (fun h => prioKey h == p))
    ∧ (∀ l : List MailHandler, process l m = processList m (sortHandlers l))
    ∧ (∀ L1 L2 : List MailHandler,
        processList m (L1 ++ L2) =
          processList m L1 ++
            (if (processList m L1).any isSuccess = true then []
             else processList m L2))
    ∧ (∀ (h : MailHandler) (e : String),
        (h.canHandle m = .error e → processList m [h] = [errResult e])
        ∧ (h.canHandle m = .ok false → processList m [h] = [])
        ∧ (h.canHandle m = .ok true → h.handle m = .error e →
            processList m [h] = [errResult e]))
    ∧ (∀ (h : MailHandler) (r : MailHandlerResult),
        h.canHandle m = .ok true → h.handle m = .ok r →
          processList m [h] = [r]) := by
  refine ⟨?_, ?_, processList_append m, ?_, ?_⟩
  · intro l
    refine ⟨List.sorted_insertionSort _ l, List.perm_insertionSort _ l,
      sortHandlers_filter_prio l⟩
  · intro l
    rfl
  · intro h e
    refine ⟨?_, ?_, ?_⟩
    · intro hch
      simp [processList, hch]
    · intro hch
      simp [processList, hch]
    · intro hch hh
      simp [processList, hch, hh]
  · intro h r hch hh
    by_cases hs : isSuccess r
    · simp [processList, hch, hh, hs]
    · simp [processList, hch, hh, hs]

/-- Concrete mail for the C3 witness. -/
def cMail : Mail :=
  ⟨"a@x", "b@x", "Hello", "body", none, none, none, none⟩

/-- Concrete throwing handler (priority 5) for the C3 witness. -/
def cThrow : MailHandler :=
  ⟨"h-throw", some 5, fun _ => .ok true, fun _ => .error "boom"⟩

/-- Concrete succeeding handler (priority 1) for the C3 witness. -/
def cOk : MailHandler :=
  ⟨"h-ok", some 1, fun _ => .ok true, fun _ => .ok ⟨true, none, none⟩⟩

/-- Witness for C3: a throwing handler contributes an error result, a
succeeding handler contributes its result, and the append law shows the
throwing higher-priority handler does not stop the succeeding one. -/
theorem handlerRegistry_process_order_witness :
    processList cMail [cThrow] = [errResult "boom"]
    ∧ processList cMail [cOk] = [⟨true, none, none⟩]
    ∧ processList cMail ([cThrow] ++ [cOk])
        = [errResult "boom", ⟨true, none, none⟩] := by
  have h1 : processList cMail [cThrow] = [errResult "boom"] :=
    ((handlerRegistry_process_order cMail).2.2.2.1 cThrow "boom").2.2 rfl rfl
  have h2 : processList cMail [cOk] = [⟨true, none, none⟩] :=
    (handlerRegistry_process_order cMail).2.2.2.2 cOk ⟨true, none, none⟩ rfl rfl
  have h3 := (handlerRegistry_process_order cMail).2.2.1 [cThrow] [cOk]
  rw [h1, h2] at h3
  exact ⟨h1, h2, by rw [h3]; rfl⟩

end Handlers

namespace Transport

/-- Connection states, from the `TransportState` enum. -/
inductive TState where
  | disconnected
  | connecting
  | connected
  | disconnecting
  | error
deriving DecidableEq, Repr

/-- Transport configuration fields that drive the lifecycle:
`reconnect` and `maxReconnectAttempts` (`0` stands for an unset value,
which `scheduleReconnect` replaces by 5 through `|| 5`). -/
structure TConfig where
  reconnect : Bool
  maxReconnectAttempts : Nat
deriving DecidableEq, Repr

/-- Effective attempt ceiling: `config.maxReconnectAttempts || 5`. -/
def effMaxAttempts (cfg : TConfig) : Nat :=
  if cfg.maxReconnectAttempts = 0 then 5 else cfg.maxReconnectAttempts

/-- Status of the connection attempt started by the latest `connect()`
call, which suspends at `await this.createConnection()`:

- `idle`: no unsettled `createConnection` promise;
- `awaiting scheduled`: the promise is unsettled and the socket's
  listeners are attached, so `open` may still fire;
- `detached scheduled`: the promise is unsettled but the socket can emit
  nothing further (its `close` already fired, or `disconnect()` removed
  its listeners and nulled it), so only the connect-timeout can still
  reject the promise.

`scheduled` records whether this `connect()` was invoked by the reconnect
timer, whose `.catch` routes the failure into `handleDisconnect`.  The
model keeps one outstanding attempt: a later `connect()` supersedes an
earlier unsettled one.  Socket teardown follows the Node path of the
source, where `disconnect()` calls `removeAllListeners`. -/
inductive Attempt where
  | idle
  | awaiting (scheduled : Bool)
  | detached (scheduled : Bool)
deriving DecidableEq, Repr

/-- Lifecycle-relevant mutable state of a `WebSocketTransport`: the
connection state, the `reconnectAttempts` counter, whether a
`reconnectTimer` is armed, and the status of the in-flight connection
attempt. -/
structure TransportModel where
  st : TState
  reconnectAttempts : Nat
  reconnectTimer : Bool
  attempt : Attempt
deriving DecidableEq, Repr

/-- Embedding of `BaseTransport.setState`: the state is assigned and a
`(from, to)` state-change notification is emitted only when it actually
changed.  The second component is the list of emitted state changes. -/
def setState (s : TransportModel) (t : TState) :
    TransportModel × List (TState × TState) :=
  ({ s with st := t }, if s.st = t then [] else [(s.st, t)])

/-- Embedding of `WebSocketTransport.scheduleReconnect`: at or above the
attempt ceiling it transitions to Error and schedules nothing; otherwise
it increments the counter and arms the reconnect timer. -/
def scheduleReconnect (cfg : TConfig) (s : TransportModel) :
    TransportModel × List (TState × TState) :=
  if effMaxAttempts cfg ≤ s.reconnectAttempts then
    setState s .error
  else
    ({ s with reconnectAttempts := s.reconnectAttempts + 1, reconnectTimer := true }, [])

/-- Embedding of `WebSocketTransport.handleDisconnect`: clear timers, note
whether the state was Connected, move to Disconnected, and (when it was
Connected and reconnection is configured) schedule a reconnect.  The
rejection of pending requests is modelled separately with the pending
table. -/
def handleDisconnect (cfg : TConfig) (s : TransportModel) :
    TransportModel × List (TState × TState) :=
  let r := setState { s with reconnectTimer := false } .disconnected
  if s.st = .connected ∧ cfg.reconnect = true then
    let r2 := scheduleReconnect cfg r.1
    (r2.1, r.2 ++ r2.2)
  else
    r

/-- A socket torn down while its `createConnection` promise is unsettled
leaves the attempt detached; a settled or absent attempt is unaffected. -/
def detachAttempt : Attempt → Attempt
  | .awaiting b => .detached b
  | a => a

/-- Embedding of the synchronous prefix of `WebSocketTransport.connect`:
a no-op when already Connected/Connecting; otherwise it moves to
Connecting, resets `reconnectAttempts` to 0, and starts a connection
attempt (spawning the socket), then suspends.  The attempt's outcome
arrives later as a separate `wsOpen`, `connFail` or `wsClose` event. -/
def connectPrefix (s : TransportModel) (scheduled : Bool) :
    TransportModel × List (TState × TState) :=
  if s.st = .connected ∨ s.st = .connecting then
    (s, [])
  else
    let r := setState s .connecting
    ({ r.1 with reconnectAttempts := 0, attempt := .awaiting scheduled }, r.2)

/-- Events of the single-threaded transport event loop.  `connect()` is
not atomic: `connectStart` is its synchronous prefix, and the socket
outcome arrives later as `wsOpen` (the `open` handler), `connFail` (the
`createConnection` promise rejects: connect-timeout, or `error` while
Connecting), or `wsClose` (the socket's `close` handler, also covering an
unexpected close while Connected).  `reconnectFire` is the armed
reconnect timer invoking `connect()`; `disconnect` is an explicit
`disconnect()` call, which may interleave while a connect is awaited. -/
inductive TEvent where
  | connectStart
  | wsOpen
  | connFail
  | wsClose
  | reconnectFire
  | disconnect
deriving DecidableEq, Repr

/-- One event step of the transport lifecycle. -/
def stepT (cfg : TConfig) (s : TransportModel) : TEvent → TransportModel × List (TState × TState)
  | .connectStart => connectPrefix s false
  | .wsOpen =>
      match s.attempt with
      | .awaiting _ =>
          let r := setState s .connected
          ({ r.1 with reconnectAttempts := 0, attempt := .idle }, r.2)
      | _ => (s, [])
  | .connFail =>
      match s.attempt with
      | .awaiting sched =>
          let r := setState { s with attempt := .idle } .error
          if sched then
            let r2 := handleDisconnect cfg r.1
            (r2.1, r.2 ++ r2.2)
          else
            r
      | .detached sched =>
          let r := setState { s with attempt := .idle } .error
          if sched then
            let r2 := handleDisconnect cfg r.1
            (r2.1, r.2 ++ r2.2)
          else
            r
      | .idle => (s, [])
  | .wsClose =>
      let r := handleDisconnect cfg s
      ({ r.1 with attempt := detachAttempt s.attempt }, r.2)
  | .reconnectFire =>
      if s.reconnectTimer then
        connectPrefix { s with reconnectTimer := false } true
      else
        (s, [])
  | .disconnect =>
      if s.st = .disconnected then
        (s, [])
      else
        let r1 := setState s .disconnecting
        let r2 := setState { r1.1 with reconnectTimer := false } .disconnected
        ({ r2.1 with attempt := detachAttempt s.attempt }, r1.2 ++ r2.2)

/-- Folding a list of events over the transport, collecting every emitted
state change in order. -/
def runT (cfg : TConfig) (s : TransportModel) : List TEvent → TransportModel × List (TState × TState)
  | [] => (s, [])
  | e :: es =>
      let r1 := stepT cfg s e
      let r2 := runT cfg r1.1 es
      (r2.1, r1.2 ++ r2.2)

/-- Initial transport state (`TransportState.DISCONNECTED`, counter 0, no
timer, no attempt in flight). -/
def initT : TransportModel :=
  ⟨.disconnected, 0, false, .idle⟩

/-- One unexpected-disconnect/reconnect cycle: the socket closes, the
scheduled reconnect timer fires (running connect()'s prefix), and the new
socket opens. -/
def disconnectCycle : List TEvent :=
  [.wsClose, .reconnectFire, .wsOpen]

/-- Eleven consecutive unexpected disconnects after an initial successful
connect (ten full cycles plus a final close). -/
def elevenDisconnects : List TEvent :=
  TEvent.connectStart :: TEvent.wsOpen ::
    ((List.replicate 10 disconnectCycle).flatten ++ [TEvent.wsClose])

/-- Claim C5 is violated by the code: with `maxReconnectAttempts = 10`,
after 11 consecutive unexpected disconnects the transport is NOT in a
terminal Error state — it is Disconnected with a further reconnect timer
armed and the attempt counter back at 1, because `connect()` resets
`reconnectAttempts` to 0 on every (also scheduled) invocation, making the
ceiling in `scheduleReconnect` unreachable. -/
theorem reconnect_ceiling_never_reached :
    (runT ⟨true, 10⟩ initT elevenDisconnects).1.st = .disconnected
    ∧ (runT ⟨true, 10⟩ initT elevenDisconnects).1.reconnectTimer = true
    ∧ (runT ⟨true, 10⟩ initT elevenDisconnects).1.reconnectAttempts = 1 := by
  decide

end Transport

namespace Pending

/-- Outcome with which a pending request promise is settled: resolved by a
matching response frame, or rejected by its timeout timer. -/
inductive Settle where
  | resolved
  | timedOut
deriving DecidableEq, Repr

/-- State of the transport's `pendingRequests` Map together with the
settlement history.  An entry `(id, deadline)` stands for a stored
`PendingRequest` whose timeout timer is armed for `deadline`; the timer is
armed exactly as long as the entry is present (`handleMessage` and the
`send` catch clear it as they delete the entry, and the timeout callback
deletes the entry as it fires). -/
structure PendState where
  pending : List (String × Nat)
  settled : List (String × Settle)
deriving DecidableEq, Repr

/-- Lookup in the pending table (`Map.has`/`Map.get`). -/
def lookupPending (l : List (String × Nat)) (id : String) : Option Nat :=
  (l.find? (fun p => p.1 == id)).map (fun p => p.2)

/-- Removal from the pending table (`Map.delete`). -/
def removePending (l : List (String × Nat)) (id : String) : List (String × Nat) :=
  l.filter (fun p => !(p.1 == id))

/-- Events that can reach a pending entry on the single-threaded loop: an
inbound frame carrying a message id (from `handleMessage`), or the
timeout timer of a request firing at its deadline. -/
inductive PEvent where
  | frame (id : String) (t : Nat)
  | timerFire (id : String) (t : Nat)
deriving DecidableEq, Repr

/-- One event step over the pending table, from
`WebSocketTransport.handleMessage` (a frame whose id matches a pending
entry deletes the entry, clears the timer and resolves; any other frame is
emitted as a general message and leaves the table alone) and from the
timeout callback installed by `send` (it deletes the entry and rejects; it
can only run while the entry is still present, at the entry's
deadline). -/
def stepP (s : PendState) : PEvent → PendState
  | .frame id _ =>
      match lookupPending s.pending id with
      | some _ =>
          { pending := removePending s.pending id
            settled := s.settled ++ [(id, .resolved)] }
      | none => s
  | .timerFire id t =>
      match lookupPending s.pending id with
      | some d =>
          if t = d then
            { pending := removePending s.pending id
              settled := s.settled ++ [(id, .timedOut)] }
          else
            s
      | none => s

/-- Folding an event trace over the pending table. -/
def runP (s : PendState) (tr : List PEvent) : PendState :=
  tr.foldl stepP s

/-- Settlements recorded for one request id, in order. -/
def settledFor (s : PendState) (id : String) : List Settle :=
  (s.settled.filter (fun p => p.1 == id)).map (fun p => p.2)

/-- Test whether an event addresses the given id. -/
def touches (id : String) : PEvent → Bool
  | .frame i _ => i == id
  | .timerFire i _ => i == id

theorem lookupPending_removePending_self (l : List (String × Nat)) (id : String) :
    lookupPending (removePending l id) id = none := by
  induction l with
  | nil => rfl
  | cons p rest ih =>
      by_cases h : p.1 == id
      · simp only [removePending, List.filter, h, Bool.not_true]
        exact ih
      · simp only [removePending, List.filter, h, Bool.not_false]
        rw [show lookupPending (p :: List.filter (fun q => !(q.1 == id)) rest) id
            = lookupPending (List.filter (fun q => !(q.1 == id)) rest) id from by
          simp [lookupPending, List.find?, h]]
        exact ih

theorem lookupPending_removePending_other (l : List (String × Nat)) (i id : String)
    (hne : (i == id) = false) :
    lookupPending (removePending l i) id = lookupPending l id := by
  induction l with
  | nil => rfl
  | cons p rest ih =>
      by_cases h : p.1 == i
      · have hpid : (p.1 == id) = false := by
          have h1 : p.1 = i := by simpa using h
          subst h1
          exact hne
        simp only [removePending, List.filter, h, Bool.not_true]
        rw [show lookupPending (p :: rest) id
            = lookupPending rest id from by simp [lookupPending, List.find?, hpid]]
        exact ih
      · simp only [removePending, List.filter, h, Bool.not_false]
        by_cases hpid : p.1 == id
        · simp [lookupPending, List.find?, hpid]
        · rw [show lookupPending (p :: rest) id
              = lookupPending rest id from by simp [lookupPending, List.find?, hpid]]
          rw [show lookupPending (p :: List.filter (fun p => !(p.1 == i)) rest) id
              = lookupPending (List.filter (fun p => !(p.1 == i)) rest) id from by
            simp [lookupPending, List.find?, hpid]]
          exact ih

theorem settledFor_append_one (s : PendState) (id i : String) (x : Settle) :
    settledFor { s with settled := s.settled ++ [(i, x)] } id
      = settledFor s id ++ (if i == id then [x] else []) := by
  by_cases h : i == id
  · simp [settledFor, List.filter_append, List.filter, h]
  · simp [settledFor, List.filter_append, List.filter, h]

theorem stepP_untouched (s : PendState) (id : String) (e : PEvent)
    (he : touches id e = false) :
    settledFor (stepP s e) id = settledFor s id
    ∧ lookupPending (stepP s e).pending id = lookupPending s.pending id := by
  cases e with
  | frame i t =>
      have hne : (i == id) = false := he
      cases hl : lookupPending s.pending i with
      | none => simp [stepP, hl]
      | some d =>
          constructor
          · rw [show stepP s (.frame i t)
                = { pending := removePending s.pending i
                    settled := s.settled ++ [(i, .resolved)] } from by simp [stepP, hl]]
            rw [show ({ pending := removePending s.pending i
                        settled := s.settled ++ [(i, Settle.resolved)] } : PendState)
                = { { s with pending := removePending s.pending i } with
                    settled := ({ s with pending := removePending s.pending i } : PendState).settled
                      ++ [(i, Settle.resolved)] } from rfl]
            rw [settledFor_append_one]
            simp [settledFor, hne]
          · rw [show stepP s (.frame i t)
                = { pending := removePending s.pending i
                    settled := s.settled ++ [(i, .resolved)] } from by simp [stepP, hl]]
            exact lookupPending_removePending_other _ _ _ hne
  | timerFire i t =>
      have hne : (i == id) = false := he
      cases hl : lookupPending s.pending i with
      | none => simp [stepP, hl]
      | some d =>
          by_cases ht : t = d
          · constructor
            · rw [show stepP s (.timerFire i t)
                  = { pending := removePending s.pending i
                      settled := s.settled ++ [(i, .timedOut)] } from by simp [stepP, hl, ht]]
              rw [show ({ pending := removePending s.pending i
                          settled := s.settled ++ [(i, Settle.timedOut)] } : PendState)
                  = { { s with pending := removePending s.pending i } with
                      settled := ({ s with pending := removePending s.pending i } : PendState).settled
                        ++ [(i, Settle.timedOut)] } from rfl]
              rw [settledFor_append_one]
              simp [settledFor, hne]
            · rw [show stepP s (.timerFire i t)
                  = { pending := removePending s.pending i
                      settled := s.settled ++ [(i, .timedOut)] } from by simp [stepP, hl, ht]]
              exact lookupPending_removePending_other _ _ _ hne
          · simp [stepP, hl, ht]

theorem stepP_not_pending (s : PendState) (id : String) (e : PEvent)
    (hnp : lookupPending s.pending id = none) :
    settledFor (stepP s e) id = settledFor s id
    ∧ lookupPending (stepP s e).pending id = none := by
  by_cases hti : touches id e = true
  · cases e with
    | frame i t =>
        have hid : i = id := by simpa [touches] using hti
        subst hid
        simp [stepP, hnp]
    | timerFire i t =>
        have hid : i = id := by simpa [touches] using hti
        subst hid
        simp [stepP, hnp]
  · have he : touches id e = false := by
      cases hv : touches id e
      · rfl
      · exact absurd hv hti
    have h := stepP_untouched s id e he
    exact ⟨h.1, by rw [h.2]; exact hnp⟩

theorem runP_not_pending (s : PendState) (id : String) (tr : List PEvent)
    (hnp : lookupPending s.pending id = none) :
    settledFor (runP s tr) id = settledFor s id
    ∧ lookupPending (runP s tr).pending id = none := by
  induction tr generalizing s with
  | nil => exact ⟨rfl, hnp⟩
  | cons e es ih =>
      have hstep := stepP_not_pending s id e hnp
      have hrest := ih (stepP s e) hstep.2
      exact ⟨by rw [show runP s (e :: es) = runP (stepP s e) es from rfl, hrest.1, hstep.1],
        hrest.2⟩

theorem runP_untouched (s : PendState) (id : String) (tr : List PEvent)
    (htr : ∀ e ∈ tr, touches id e = false) :
    settledFor (runP s tr) id = settledFor s id
    ∧ lookupPending (runP s tr).pending id = lookupPending s.pending id := by
  induction tr generalizing s with
  | nil => exact ⟨rfl, rfl⟩
  | cons e es ih =>
      have he : touches id e = false := htr e (by simp)
      have hes : ∀ e' ∈ es, touches id e' = false := by
        intro e' he'
        exact htr e' (by simp [he'])
      have hstep := stepP_untouched s id e he
      have hrest := ih (stepP s e) hes
      refine ⟨?_, ?_⟩
      · rw [show runP s (e :: es) = runP (stepP s e) es from rfl, hrest.1, hstep.1]
      · rw [show runP s (e :: es) = runP (stepP s e) es from rfl, hrest.2, hstep.2]

theorem runP_at_most_once (s : PendState) (id : String) (tr : List PEvent)
    (hG : settledFor s id = []) :
    settledFor (runP s tr) id = [] ∨ settledFor (runP s tr) id = [.resolved]
      ∨ settledFor (runP s tr) id = [.timedOut] := by
  induction tr generalizing s with
  | nil => exact Or.inl hG
  | cons e es ih =>
      by_cases hti : touches id e = true
      · cases e with
        | frame i t =>
            have hid : i = id := by simpa [touches] using hti
            subst hid
            cases hl : lookupPending s.pending i with
            | none =>
                have hs : stepP s (.frame i t) = s := by simp [stepP, hl]
                rw [show runP s (.frame i t :: es) = runP (stepP s (.frame i t)) es from rfl, hs]
                exact ih s hG
            | some d =>
                have hs : stepP s (.frame i t)
                    = { pending := removePending s.pending i
                        settled := s.settled ++ [(i, .resolved)] } := by simp [stepP, hl]
                have hsettled : settledFor (stepP s (.frame i t)) i = [.resolved] := by
                  rw [hs]
                  rw [show ({ pending := removePending s.pending i
                              settled := s.settled ++ [(i, Settle.resolved)] } : PendState)
                      = { { s with pending := removePending s.pending i } with
                          settled := ({ s with pending := removePending s.pending i } : PendState).settled
                            ++ [(i, Settle.resolved)] } from rfl]
                  rw [settledFor_append_one]
                  simp [settledFor] at hG ⊢
                  exact hG
                have hnp : lookupPending (stepP s (.frame i t)).pending i = none := by
                  rw [hs]
                  exact lookupPending_removePending_self _ _
                have hrest := runP_not_pending (stepP s (.frame i t)) i es hnp
                rw [show runP s (.frame i t :: es) = runP (stepP s (.frame i t)) es from rfl]
                rw [hrest.1, hsettled]
                exact Or.inr (Or.inl rfl)
        | timerFire i t =>
            have hid : i = id := by simpa [touches] using hti
            subst hid
            cases hl : lookupPending s.pending i with
            | none =>
                have hs : stepP s (.timerFire i t) = s := by simp [stepP, hl]
                rw [show runP s (.timerFire i t :: es) = runP (stepP s (.timerFire i t)) es from rfl, hs]
                exact ih s hG
            | some d =>
                by_cases ht : t = d
                · have hs : stepP s (.timerFire i t)
                      = { pending := removePending s.pending i
                          settled := s.settled ++ [(i, .timedOut)] } := by simp [stepP, hl, ht]
                  have hsettled : settledFor (stepP s (.timerFire i t)) i = [.timedOut] := by
                    rw [hs]
                    rw [show ({ pending := removePending s.pending i
                                settled := s.settled ++ [(i, Settle.timedOut)] } : PendState)
                        = { { s with pending := removePending s.pending i } with
                            settled := ({ s with pending := removePending s.pending i } : PendState).settled
                              ++ [(i, Settle.timedOut)] } from rfl]
                    rw [settledFor_append_one]
                    simp [settledFor] at hG ⊢
                    exact hG
                  have hnp : lookupPending (stepP s (.timerFire i t)).pending i = none := by
                    rw [hs]
                    exact lookupPending_removePending_self _ _
                  have hrest := runP_not_pending (stepP s (.timerFire i t)) i es hnp
                  rw [show runP s (.timerFire i t :: es) = runP (stepP s (.timerFire i t)) es from rfl]
                  rw [hrest.1, hsettled]
                  exact Or.inr (Or.inr rfl)
                · have hs : stepP s (.timerFire i t) = s := by simp [stepP, hl, ht]
                  rw [show runP s (.timerFire i t :: es) = runP (stepP s (.timerFire i t)) es from rfl, hs]
                  exact ih s hG
      · have he : touches id e = false := by
          cases hv : touches id e
          · rfl
          · exact absurd hv hti
        have hstep := stepP_untouched s id e he
        rw [show runP s (e :: es) = runP (stepP s e) es from rfl]
        exact ih (stepP s e) (by rw [hstep.1]; exact hG)

/-- Claim C6: a pending request is settled at most once (never both
resolved and rejected); if no frame with its id arrives first, the timer
firing at the deadline rejects it with a timeout and removes the entry;
if a matching frame arrives first, it is resolved, removed, and the timer
is cancelled so that any later timer event or stale frame is a no-op. -/
theorem pendingRequest_settles_once (s : PendState) (id : String) (d t' : Nat)
    (tr tr1 rest : List PEvent)
    (hG : settledFor s id = []) :
    (settledFor (runP s tr) id = [] ∨ settledFor (runP s tr) id = [.resolved]
      ∨ settledFor (runP s tr) id = [.timedOut])
    ∧ (lookupPending s.pending id = some d →
        (∀ e ∈ tr1, touches id e = false) →
        settledFor (runP s (tr1 ++ PEvent.timerFire id d :: rest)) id = [.timedOut]
        ∧ lookupPending (runP s (tr1 ++ PEvent.timerFire id d :: rest)).pending id = none)
    ∧ (lookupPending s.pending id = some d →
        (∀ e ∈ tr1, touches id e = false) →
        settledFor (runP s (tr1 ++ PEvent.frame id t' :: rest)) id = [.resolved]
        ∧ lookupPending (runP s (tr1 ++ PEvent.frame id t' :: rest)).pending id = none) := by
  refine ⟨runP_at_most_once s id tr hG, ?_, ?_⟩
  · intro hpend htr1
    have hpre := runP_untouched s id tr1 htr1
    have happ : runP s (tr1 ++ PEvent.timerFire id d :: rest)
        = runP (stepP (runP s tr1) (.timerFire id d)) rest := by
      simp [runP, List.foldl_append]
    have hl1 : lookupPending (runP s tr1).pending id = some d := by
      rw [hpre.2]; exact hpend
    have hs : stepP (runP s tr1) (.timerFire id d)
        = { pending := removePending (runP s tr1).pending id
            settled := (runP s tr1).settled ++ [(id, .timedOut)] } := by
      simp [stepP, hl1]
    have hsettled : settledFor (stepP (runP s tr1) (.timerFire id d)) id = [.timedOut] := by
      rw [hs]
      rw [show ({ pending := removePending (runP s tr1).pending id
                  settled := (runP s tr1).settled ++ [(id, Settle.timedOut)] } : PendState)
          = { { runP s tr1 with pending := removePending (runP s tr1).pending id } with
              settled := ({ runP s tr1 with
                pending := removePending (runP s tr1).pending id } : PendState).settled
                ++ [(id, Settle.timedOut)] } from rfl]
      rw [settledFor_append_one]
      have hzero : settledFor (runP s tr1) id = [] := by rw [hpre.1]; exact hG
      simp [settledFor] at hzero ⊢
      exact hzero
    have hnp : lookupPending (stepP (runP s tr1) (.timerFire id d)).pending id = none := by
      rw [hs]
      exact lookupPending_removePending_self _ _
    have hrest := runP_not_pending (stepP (runP s tr1) (.timerFire id d)) id rest hnp
    rw [happ]
    exact ⟨by rw [hrest.1, hsettled], hrest.2⟩
  · intro hpend htr1
    have hpre := runP_untouched s id tr1 htr1
    have happ : runP s (tr1 ++ PEvent.frame id t' :: rest)
        = runP (stepP (runP s tr1) (.frame id t')) rest := by
      simp [runP, List.foldl_append]
    have hl1 : lookupPending (runP s tr1).pending id = some d := by
      rw [hpre.2]; exact hpend
    have hs : stepP (runP s tr1) (.frame id t')
        = { pending := removePending (runP s tr1).pending id
            settled := (runP s tr1).settled ++ [(id, .resolved)] } := by
      simp [stepP, hl1]
    have hsettled : settledFor (stepP (runP s tr1) (.frame id t')) id = [.resolved] := by
      rw [hs]
      rw [show ({ pending := removePending (runP s tr1).pending id
                  settled := (runP s tr1).settled ++ [(id, Settle.resolved)] } : PendState)
          = { { runP s tr1 with pending := removePending (runP s tr1).pending id } with
              settled := ({ runP s tr1 with
                pending := removePending (runP s tr1).pending id } : PendState).settled
                ++ [(id, Settle.resolved)] } from rfl]
      rw [settledFor_append_one]
      have hzero : settledFor (runP s tr1) id = [] := by rw [hpre.1]; exact hG
      simp [settledFor] at hzero ⊢
      exact hzero
    have hnp : lookupPending (stepP (runP s tr1) (.frame id t')).pending id = none := by
      rw [hs]
      exact lookupPending_removePending_self _ _
    have hrest := runP_not_pending (stepP (runP s tr1) (.frame id t')) id rest hnp
    rw [happ]
    exact ⟨by rw [hrest.1, hsettled], hrest.2⟩

/-- Witness for C6: a request with deadline 30; an unrelated frame, then a
matching frame at time 10, then the stale timer event: the request ends
resolved exactly once and removed from the table. -/
theorem pendingRequest_settles_once_witness :
    settledFor (runP ⟨[("r1", 30)], []⟩
        ([PEvent.frame "x" 5] ++ PEvent.frame "r1" 10 :: [PEvent.timerFire "r1" 30]))
        "r1" = [.resolved]
    ∧ lookupPending (runP ⟨[("r1", 30)], []⟩
        ([PEvent.frame "x" 5] ++ PEvent.frame "r1" 10 :: [PEvent.timerFire "r1" 30])).pending
        "r1" = none :=
  (pendingRequest_settles_once ⟨[("r1", 30)], []⟩ "r1" 30 10 []
      [PEvent.frame "x" 5] [PEvent.timerFire "r1" 30] (by decide)).2.2
    (by decide) (by decide)

end Pending

namespace Adapter

/-- Wire mail envelope built by `MailTransportAdapter.sendMail`: the
`mail` member of the `{ type: "mail", mail: { headers, body } }` frame,
with the four synthesized headers and the pass-through body. -/
structure WireMail where
  headerTo : String
  headerFrom : String
  headerSubject : String
  headerMessageId : String
  body : String
deriving DecidableEq, Repr

/-- Serialization performed by `sendMail`: headers are synthesized from
the Mail fields, with `"Message-ID": mail.message_id || this.generateId()`
(a missing or empty id is replaced by a generated one). -/
def sendMailFrame (m : Mail) (genId : String) : WireMail :=
  { headerTo := m.to_address
    headerFrom := m.from_address
    headerSubject := m.subject
    headerMessageId :=
      match m.message_id with
      | some s => if s = "" then genId else s
      | none => genId
    body := m.body }

/-- Shape of the JavaScript object that `handleMailMessage` emits to mail
subscribers for a `type: "mail"` frame.  Every property that may be
`undefined` on the emitted object is an `Option`. -/
structure EmittedMail where
  message_id : Option String
  from_address : Option String
  to_address : Option String
  subject : Option String
  body : Option String
  timestamp : Option String
  in_reply_to : Option String
  headers : Option (List (String × String))
deriving DecidableEq, Repr

/-- Embedding of the `type === 'mail'` branch of
`MailTransportAdapter.handleMailMessage`: the code emits `message.mail`
unconverted, so the emitted object carries only the wire object's own
properties — `headers` (the four RFC-style entries) and `body`; the Mail
field names `to_address`, `from_address`, `subject`, `message_id` are not
present on it (they read as `undefined`). -/
def handleMailEnvelope (w : WireMail) : EmittedMail :=
  { message_id := none
    from_address := none
    to_address := none
    subject := none
    body := some w.body
    timestamp := none
    in_reply_to := none
    headers := some [("To", w.headerTo), ("From", w.headerFrom),
      ("Subject", w.headerSubject), ("Message-ID", w.headerMessageId)] }

/-- Claim C8 is violated by the code: serializing a Mail with `sendMail`
and feeding the produced envelope back through `handleMailMessage` yields
an emitted object whose `to_address`, `from_address`, `subject` and
`message_id` are all absent (`undefined`); only the body (and the raw
RFC-style headers) survive the round trip, although the `Mail` interface
declares those four fields and the `mail_notification` branch shows the
intended conversion. -/
theorem mail_roundtrip_loses_fields :
    (handleMailEnvelope (sendMailFrame
        ⟨"alice@x", "bob@x", "Hi", "hello", none, none, some "mid-1", none⟩
        "gen-1")).to_address = none
    ∧ (handleMailEnvelope (sendMailFrame
        ⟨"alice@x", "bob@x", "Hi", "hello", none, none, some "mid-1", none⟩
        "gen-1")).from_address = none
    ∧ (handleMailEnvelope (sendMailFrame
        ⟨"alice@x", "bob@x", "Hi", "hello", none, none, some "mid-1", none⟩
        "gen-1")).subject = none
    ∧ (handleMailEnvelope (sendMailFrame
        ⟨"alice@x", "bob@x", "Hi", "hello", none, none, some "mid-1", none⟩
        "gen-1")).message_id = none
    ∧ (handleMailEnvelope (sendMailFrame
        ⟨"alice@x", "bob@x", "Hi", "hello", none, none, some "mid-1", none⟩
        "gen-1")).body = some "hello"
    ∧ (handleMailEnvelope (sendMailFrame
        ⟨"alice@x", "bob@x", "Hi", "hello", none, none, some "mid-1", none⟩
        "gen-1")).headers
      = some [("To", "bob@x"), ("From", "alice@x"), ("Subject", "Hi"),
          ("Message-ID", "mid-1")] := by
  decide

end Adapter

namespace ReplyWait

/-- Ways the `sendAndWait` response promise can end up settled.  The code
produces only the first two; `connectionLost` is the outcome the spec
scenario expects and is produced by no rule. -/
inductive ReplyOutcome where
  | gotMail (m : Mail)
  | timedOutReq
  | connectionLost
deriving DecidableEq, Repr

/-- Settlement state of one reply wait (the promise created inside
`ServiceBase.sendAndWait`). -/
structure WaitState where
  settled : Option ReplyOutcome
deriving DecidableEq, Repr

/-- Events that can occur while a reply wait is outstanding: an inbound
mail delivered to the registered `mailHandler`, the timeout timer firing,
or the transport disconnecting. -/
inductive WEvent where
  | inbound (m : Mail)
  | timerFire
  | disconnected
deriving DecidableEq, Repr

/-- One event step of a reply wait, from `ServiceBase.sendAndWait`: the
mail handler resolves on the first mail accepted by `isResponse` and runs
`cleanup` (removing the listener and clearing the timer, so later events
are no-ops); the timer rejects with `Request timeout: subject`;
`sendAndWait` registers no listener for disconnection, so a disconnect
leaves the wait untouched (the `Connection lost` rejections of
`handleDisconnect` reach only the transport-level `pendingRequests`, which
`sendMail` does not use). -/
def stepW (messageId : String) (expected : ServiceBase.ExpectedSubject)
    (s : WaitState) : WEvent → WaitState
  | .inbound m =>
      match s.settled with
      | some _ => s
      | none =>
          if ServiceBase.isResponse m messageId expected then
            ⟨some (.gotMail m)⟩
          else
            s
  | .timerFire =>
      match s.settled with
      | some _ => s
      | none => ⟨some .timedOutReq⟩
  | .disconnected => s

/-- Folding reply-wait events over the wait state. -/
def runW (messageId : String) (expected : ServiceBase.ExpectedSubject)
    (s : WaitState) (evs : List WEvent) : WaitState :=
  evs.foldl (stepW messageId expected) s

/-- Counterexample to C9 as stated: after the transport disconnects the
reply wait is still pending (not rejected with ConnectionLost), and when
its timer later fires it rejects with a RequestTimeout, not a
ConnectionLost failure. -/
theorem replyWait_disconnect_counterexample :
    (runW "mid-9" (.lit "Ping") ⟨none⟩ [.disconnected]).settled = none
    ∧ (runW "mid-9" (.lit "Ping") ⟨none⟩ [.disconnected, .timerFire]).settled
        = some .timedOutReq := by
  constructor
  · rfl
  · rfl

/-- Claim C9 (amended): a transport disconnect never settles a reply
wait — any sequence of disconnect events leaves the wait state unchanged,
so the wait stays pending until it is settled by its own timeout timer
(rejecting with RequestTimeout naming the subject) or by a matching
inbound mail. -/
theorem replyWait_disconnect_noop (messageId : String)
    (expected : ServiceBase.ExpectedSubject) (s : WaitState) (evs : List WEvent)
    (hevs : ∀ e ∈ evs, e = WEvent.disconnected) :
    runW messageId expected s evs = s
    ∧ (s.settled = none →
        stepW messageId expected s .timerFire = ⟨some .timedOutReq⟩)
    ∧ (∀ m : Mail, s.settled = none →
        ServiceBase.isResponse m messageId expected = true →
        stepW messageId expected s (.inbound m) = ⟨some (.gotMail m)⟩) := by
  refine ⟨?_, ?_, ?_⟩
  · induction evs generalizing s with
    | nil => rfl
    | cons e es ih =>
        have he : e = WEvent.disconnected := hevs e (by simp)
        have hes : ∀ e' ∈ es, e' = WEvent.disconnected := by
          intro e' he'
          exact hevs e' (by simp [he'])
        subst he
        exact ih s hes
  · intro hs
    simp [stepW, hs]
  · intro m hs hresp
    simp [stepW, hs, hresp]

/-- Witness for the amended C9: two disconnects leave a fresh wait
pending; the timer then rejects it with RequestTimeout; a mail whose
`in_reply_to` matches resolves it. -/
theorem replyWait_disconnect_noop_witness :
    runW "mid-9" (.lit "Ping") ⟨none⟩ [.disconnected, .disconnected] = ⟨none⟩
    ∧ stepW "mid-9" (.lit "Ping") ⟨none⟩ .timerFire = ⟨some .timedOutReq⟩
    ∧ stepW "mid-9" (.lit "Ping") ⟨none⟩
        (.inbound ⟨"ui@x", "me@x", "Re: Ping", "pong", none, none, none, some "mid-9"⟩)
      = ⟨some (.gotMail ⟨"ui@x", "me@x", "Re: Ping", "pong", none, none, none, some "mid-9"⟩)⟩ := by
  have h := replyWait_disconnect_noop "mid-9" (.lit "Ping") ⟨none⟩
    [.disconnected, .disconnected] (by decide)
  exact ⟨h.1, h.2.1 rfl,
    h.2.2 ⟨"ui@x", "me@x", "Re: Ping", "pong", none, none, none, some "mid-9"⟩ rfl (by rfl)⟩

end ReplyWait

end MindSwarm
